import Mathlib

/-! Verification development for the 2D top-down game template.

The core per-frame update logic is embedded shallowly over the reals:
 * human input resolution and clamping (src/components/game/HumanPlayer.ts),
 * AI vision-cone check and pursuit with continuous rotation
   (src/components/game/AIPlayer.ts),
 * the grid-direction variant of the vision check (the older Game.tsx),
 * the collision resolver contract (collision.ts is referenced by
   AIPlayer.ts but its source is not available, so it is modelled from
   the specification, section 4.4),
 * the frame driver sequencing (Game.tsx game loop).

JavaScript numeric idioms are modelled explicitly: the float remainder
`a % b` as a truncated-quotient remainder, `v || d` on an optional
number treating undefined and 0 as falsy, and `Math.atan2 y x` as the
complex argument of the point (x, y). -/

/-- Movement / facing directions (types.ts). -/
inductive Direction where
  | up
  | down
  | left
  | right
  | none
deriving DecidableEq

/-- Game entity (types.ts `Player` extending `GameObject`).  The three
optional fields mirror the optional TS fields read by the AI controller
(`isAI?`, `rotation?`, `rotationSpeed?`). -/
structure Player where
  id : String
  x : ℝ
  y : ℝ
  direction : Direction
  speed : ℝ
  size : ℝ
  pulse : ℝ
  isAI : Option Bool := Option.none
  rotation : Option ℝ := Option.none
  rotationSpeed : Option ℝ := Option.none

/-- AI vision state (types.ts `AIVision`). -/
structure AIVision where
  canSeePlayer : Bool
  visionConeAngle : ℝ
  visionDistance : ℝ

/-- The held state of the four movement keys.  The controllers read
exactly the entries 'w', 'a', 's', 'd' of the key map. -/
structure KeyState where
  w : Bool := false
  a : Bool := false
  s : Bool := false
  d : Bool := false

/-- Playfield bounds (the canvas element: width and height). -/
structure Canvas where
  width : ℝ
  height : ℝ

/-- Modelled from the spec: a static axis-aligned obstacle `Box` with
center (x, y), width and height (spec section 3; the `Box` type is
imported by AIPlayer.ts from code that is not among the sources).  Only
the geometric fields take part in collision. -/
structure Box where
  x : ℝ
  y : ℝ
  width : ℝ
  height : ℝ

/-- Result of one AI step (the record returned by `updateAiPlayer`). -/
structure AIStepResult where
  updatedAiPlayer : Player
  updatedAiVision : AIVision

/-- Truncation toward zero, as used by the JS float remainder. -/
noncomputable def jsTrunc (x : ℝ) : ℤ := if 0 ≤ x then ⌊x⌋ else ⌈x⌉

/-- The JS remainder `a % b` (truncated quotient, sign of the dividend). -/
noncomputable def jsMod (a b : ℝ) : ℝ := a - b * (jsTrunc (a / b) : ℝ)

/-- JS `v || d` for an optional number: `undefined` and `0` are falsy. -/
noncomputable def jsOr (o : Option ℝ) (d : ℝ) : ℝ :=
  match o with
  | Option.none => d
  | Option.some v => if v = 0 then d else v

/-- The clamping pattern `Math.max lo (Math.min hi v)` of the code. -/
noncomputable def clampJS (lo hi v : ℝ) : ℝ := max lo (min hi v)

/-- `Math.atan2 y x`, embedded as the complex argument of (x, y). -/
noncomputable def atan2 (y x : ℝ) : ℝ := Complex.arg ⟨x, y⟩

/-- The distance computation `Math.sqrt (dx*dx + dy*dy)` of the code,
from (x1, y1) to (x2, y2). -/
noncomputable def euclidDist (x1 y1 x2 y2 : ℝ) : ℝ :=
  Real.sqrt ((x2 - x1) * (x2 - x1) + (y2 - y1) * (y2 - y1))

/-- The code's upper wrap step: `if (r >= 2π) r -= 2π`. -/
noncomputable def wrapAbove (r : ℝ) : ℝ :=
  if r ≥ 2 * Real.pi then r - 2 * Real.pi else r

/-- The code's rotation-difference normalization:
`if (d > π) d -= 2π; if (d < -π) d += 2π`. -/
noncomputable def wrapPi (d : ℝ) : ℝ :=
  let d1 := if d > Real.pi then d - 2 * Real.pi else d
  if d1 < -Real.pi then d1 + 2 * Real.pi else d1

/-- The quadrant block that AIPlayer.ts repeats verbatim to derive a
discrete `Direction` from a rotation angle. -/
noncomputable def directionFromRotation (newRotation : ℝ) : Direction :=
  if newRotation ≥ 7 * Real.pi / 4 ∨ newRotation < Real.pi / 4 then Direction.right
  else if Real.pi / 4 ≤ newRotation ∧ newRotation < 3 * Real.pi / 4 then Direction.down
  else if 3 * Real.pi / 4 ≤ newRotation ∧ newRotation < 5 * Real.pi / 4 then Direction.left
  else Direction.up

/-- HumanPlayer.ts `updatePlayer`: resolve held keys axis by axis
(vertical first, then horizontal), move by speed along each active
axis, clamp into the canvas when one is present, advance the pulse by
0.1 modulo 2π, and keep the previous direction when no key resolved. -/
noncomputable def updatePlayer (player : Player) (keysPressed : KeyState)
    (canvas : Option Canvas) : Player :=
  let newY := if keysPressed.w then player.y - player.speed
    else if keysPressed.s then player.y + player.speed else player.y
  let dirVert : Direction := if keysPressed.w then Direction.up
    else if keysPressed.s then Direction.down else Direction.none
  let newX := if keysPressed.a then player.x - player.speed
    else if keysPressed.d then player.x + player.speed else player.x
  let newDirection : Direction := if keysPressed.a then Direction.left
    else if keysPressed.d then Direction.right else dirVert
  let clampedX := match canvas with
    | Option.some c => clampJS player.size (c.width - player.size) newX
    | Option.none => newX
  let clampedY := match canvas with
    | Option.some c => clampJS player.size (c.height - player.size) newY
    | Option.none => newY
  { player with
    x := clampedX
    y := clampedY
    direction := if newDirection = Direction.none then player.direction else newDirection
    pulse := jsMod (player.pulse + 0.1) (2 * Real.pi) }

/-- AIPlayer.ts `checkAiVision` (continuous-rotation variant): reject
targets beyond the vision distance, then compare the absolute angular
difference between the bearing to the player and `rotation || 0`,
folded once at π, against half the cone angle (degrees to radians). -/
noncomputable def checkAiVision (aiPlayer player : Player) (aiVision : AIVision) :
    AIVision :=
  let dx := player.x - aiPlayer.x
  let dy := player.y - aiPlayer.y
  let distance := Real.sqrt (dx * dx + dy * dy)
  if distance > aiVision.visionDistance then
    { aiVision with canSeePlayer := false }
  else
    let rotation := jsOr aiPlayer.rotation 0
    let angleToPlayer := atan2 dy dx
    let angleDiff0 := |angleToPlayer - rotation|
    let angleDiff := if angleDiff0 > Real.pi then 2 * Real.pi - angleDiff0 else angleDiff0
    let visionConeAngleRad := aiVision.visionConeAngle * Real.pi / 180
    { aiVision with canSeePlayer := decide (angleDiff ≤ visionConeAngleRad / 2) }

/-- The grid-direction variant's `checkAiVision` (older Game.tsx): the
facing angle comes from the discrete direction in degrees, and an AI
whose direction is `none` cannot see at all. -/
noncomputable def checkAiVisionGrid (aiPlayer player : Player) (aiVision : AIVision) :
    AIVision :=
  let dx := player.x - aiPlayer.x
  let dy := player.y - aiPlayer.y
  let distance := Real.sqrt (dx * dx + dy * dy)
  if distance > aiVision.visionDistance then
    { aiVision with canSeePlayer := false }
  else
    let directionAngle : Option ℝ :=
      match aiPlayer.direction with
      | Direction.up => Option.some (-90)
      | Direction.down => Option.some 90
      | Direction.left => Option.some 180
      | Direction.right => Option.some 0
      | Direction.none => Option.none
    match directionAngle with
    | Option.none => { aiVision with canSeePlayer := false }
    | Option.some dAngle =>
      let angleToPlayer := atan2 dy dx * (180 / Real.pi)
      let angleDiff0 := |angleToPlayer - dAngle|
      let angleDiff := if angleDiff0 > 180 then 360 - angleDiff0 else angleDiff0
      { aiVision with canSeePlayer := decide (angleDiff ≤ aiVision.visionConeAngle / 2) }

/-- Modelled from the spec: the circle/rectangle overlap test of the
collision resolver (collision.ts is referenced by AIPlayer.ts but is
not among the sources; spec section 4.4).  The circle of radius `r` at
(px, py) overlaps the axis-aligned box iff the closest point of the box
to the circle center lies strictly within the radius. -/
noncomputable def circleBoxOverlap (px py r : ℝ) (b : Box) : Bool :=
  let cx := clampJS (b.x - b.width / 2) (b.x + b.width / 2) px
  let cy := clampJS (b.y - b.height / 2) (b.y + b.height / 2) py
  decide ((px - cx) * (px - cx) + (py - cy) * (py - cy) < r * r)

/-- Modelled from the spec: the overlap test of the proposed position
of the moving entity against every static box and against the other
entity (circle/circle: centers closer than the sum of the sizes). -/
noncomputable def overlapsAny (px py : ℝ) (moving : Player) (boxes : List Box)
    (other : Player) : Bool :=
  boxes.any (fun b => circleBoxOverlap px py moving.size b) ||
    decide ((other.x - px) * (other.x - px) + (other.y - py) * (other.y - py) <
      (moving.size + other.size) * (moving.size + other.size))

/-- Modelled from the spec: `calculateNonCollidingPosition` of
collision.ts (not among the sources; spec section 4.4): if the proposed
position overlaps any obstacle or the other entity, return the mover's
pre-move position unchanged, otherwise return the proposed position
verbatim. -/
noncomputable def calculateNonCollidingPosition (px py : ℝ) (moving : Player)
    (boxes : List Box) (other : Player) : ℝ × ℝ :=
  if overlapsAny px py moving boxes other then (moving.x, moving.y) else (px, py)

/-- The tail of AIPlayer.ts `updateAiPlayer` shared by its pursue and
patrol paths: wall check and 180° turn, clamping into bounds, collision
resolution with randomized reorientation on deflection, and the final
record with the pulse advanced by 0.08 modulo 2π.  `rand` stands for
the `Math.random()` sample of that frame. -/
noncomputable def aiAfterMove (aiPlayer player : Player) (updatedAiVision : AIVision)
    (nx ny nr : ℝ) (nd : Direction) (canvas : Option Canvas) (boxes : List Box)
    (rand : ℝ) : AIStepResult :=
  let afterWall : ℝ × ℝ × ℝ × Direction :=
    match canvas with
    | Option.none => (nx, ny, nr, nd)
    | Option.some c =>
      let wouldHitWall :=
        nx < aiPlayer.size ∨ nx > c.width - aiPlayer.size ∨
        ny < aiPlayer.size ∨ ny > c.height - aiPlayer.size
      let rd : ℝ × Direction :=
        if wouldHitWall then
          let r := wrapAbove (nr + Real.pi)
          (r, directionFromRotation r)
        else (nr, nd)
      (clampJS aiPlayer.size (c.width - aiPlayer.size) nx,
       clampJS aiPlayer.size (c.height - aiPlayer.size) ny, rd.1, rd.2)
  let fx := afterWall.1
  let fy := afterWall.2.1
  let r1 := afterWall.2.2.1
  let d1 := afterWall.2.2.2
  let final := calculateNonCollidingPosition fx fy aiPlayer boxes player
  let rd2 : ℝ × Direction :=
    if final.1 ≠ fx ∨ final.2 ≠ fy then
      let r := wrapAbove (r1 + Real.pi / 2 + rand * Real.pi)
      (r, directionFromRotation r)
    else (r1, d1)
  { updatedAiPlayer := { aiPlayer with
      x := final.1
      y := final.2
      direction := rd2.2
      rotation := Option.some rd2.1
      pulse := jsMod (aiPlayer.pulse + 0.08) (2 * Real.pi) }
    updatedAiVision := updatedAiVision }

/-- AIPlayer.ts `updateAiPlayer`: recompute vision; if the player is
seen within contact range, stop and face the player exactly (early
return, skipping wall and collision handling); if seen farther away,
rotate by at most `rotationSpeed` toward the bearing (snapping within
0.1 rad), normalize into [0, 2π), and advance along the facing;
otherwise patrol straight along `rotation || 0`.  The movement paths
then run the shared wall/collision tail. -/
noncomputable def updateAiPlayer (aiPlayer player : Player) (aiVision : AIVision)
    (canvas : Option Canvas) (boxes : List Box) (rand : ℝ) : AIStepResult :=
  let updatedAiVision := checkAiVision aiPlayer player aiVision
  let rotation0 := jsOr aiPlayer.rotation 0
  let rotSpeed := jsOr aiPlayer.rotationSpeed 0.05
  if updatedAiVision.canSeePlayer then
    let dx := player.x - aiPlayer.x
    let dy := player.y - aiPlayer.y
    let distanceToPlayer := Real.sqrt (dx * dx + dy * dy)
    let angleToPlayer := atan2 dy dx
    if distanceToPlayer < aiPlayer.size + player.size then
      { updatedAiPlayer := { aiPlayer with
          direction := directionFromRotation angleToPlayer
          rotation := Option.some angleToPlayer
          pulse := jsMod (aiPlayer.pulse + 0.08) (2 * Real.pi) }
        updatedAiVision := updatedAiVision }
    else
      let rotationDiff := wrapPi (angleToPlayer - rotation0)
      let r1 :=
        if |rotationDiff| > 0.1 then
          if rotationDiff > 0 then rotation0 + rotSpeed else rotation0 - rotSpeed
        else angleToPlayer
      let r2 := wrapAbove (if r1 < 0 then r1 + 2 * Real.pi else r1)
      aiAfterMove aiPlayer player updatedAiVision
        (aiPlayer.x + Real.cos r2 * aiPlayer.speed)
        (aiPlayer.y + Real.sin r2 * aiPlayer.speed)
        r2 (directionFromRotation r2) canvas boxes rand
  else
    aiAfterMove aiPlayer player updatedAiVision
      (aiPlayer.x + Real.cos rotation0 * aiPlayer.speed)
      (aiPlayer.y + Real.sin rotation0 * aiPlayer.speed)
      rotation0 aiPlayer.direction canvas boxes rand

/-- The spec's geometry/vision contract `isWithinCone` (section 4.1),
written from the spec's words: distance pre-filter, then the absolute
degree difference between the bearing and the facing, wrapped by
subtracting from 360° when the raw difference exceeds 180°, compared
against half the cone angle. -/
noncomputable def isWithinCone (ox oy facing tx ty coneAngleDeg maxDistance : ℝ) :
    Bool :=
  let dx := tx - ox
  let dy := ty - oy
  let distance := Real.sqrt (dx * dx + dy * dy)
  if distance > maxDistance then false
  else
    let bearingDeg := atan2 dy dx * (180 / Real.pi)
    let facingDeg := facing * (180 / Real.pi)
    let raw := |bearingDeg - facingDeg|
    let wrapped := if raw > 180 then 360 - raw else raw
    decide (wrapped ≤ coneAngleDeg / 2)

/-- The state owned by the frame driver (Game.tsx). -/
structure GameState where
  player : Player
  aiPlayer : Player
  aiVision : AIVision

/-- One frame of the Game.tsx game loop: the human step, then the AI
step against the human state sampled at the start of the frame. -/
noncomputable def gameFrame (keys : KeyState) (rand : ℝ) (canvas : Option Canvas)
    (boxes : List Box) (st : GameState) : GameState :=
  let newPlayer := updatePlayer st.player keys canvas
  let r := updateAiPlayer st.aiPlayer st.player st.aiVision canvas boxes rand
  { player := newPlayer, aiPlayer := r.updatedAiPlayer, aiVision := r.updatedAiVision }

/-- Iterated frames with per-frame key state and randomness streams. -/
noncomputable def simulate (keys : Nat → KeyState) (rand : Nat → ℝ)
    (canvas : Option Canvas) (boxes : List Box) (st : GameState) : Nat → GameState
  | 0 => st
  | n + 1 => gameFrame (keys n) (rand n) canvas boxes (simulate keys rand canvas boxes st n)

/-! Basic helper lemmas about the numeric idioms. -/

lemma jsMod_nonneg_lt (a b : ℝ) (ha : 0 ≤ a) (hb : 0 < b) :
    0 ≤ jsMod a b ∧ jsMod a b < b := by
  have hq : 0 ≤ a / b := div_nonneg ha hb.le
  have ht : jsTrunc (a / b) = ⌊a / b⌋ := by simp [jsTrunc, hq]
  have hfr : jsMod a b = b * Int.fract (a / b) := by
    rw [jsMod, ht, Int.fract, mul_sub, mul_comm b (a / b), div_mul_cancel₀ a hb.ne']
  constructor
  · rw [hfr]
    exact mul_nonneg hb.le (Int.fract_nonneg _)
  · rw [hfr]
    calc b * Int.fract (a / b) < b * 1 :=
      (mul_lt_mul_left hb).mpr (Int.fract_lt_one _)
    _ = b := mul_one b

lemma clampJS_mem (lo hi v : ℝ) (h : lo ≤ hi) :
    lo ≤ clampJS lo hi v ∧ clampJS lo hi v ≤ hi := by
  refine ⟨le_max_left _ _, max_le h (min_le_left _ _)⟩

lemma clampJS_eq_self (lo hi v : ℝ) (h1 : lo ≤ v) (h2 : v ≤ hi) :
    clampJS lo hi v = v := by
  rw [clampJS, min_eq_right h2, max_eq_right h1]

lemma complex_mk_ofReal (x : ℝ) : (⟨x, 0⟩ : ℂ) = (x : ℂ) := by
  apply Complex.ext <;> simp

lemma atan2_zero_nonneg (x : ℝ) (hx : 0 ≤ x) : atan2 0 x = 0 := by
  rw [atan2, complex_mk_ofReal]
  exact Complex.arg_ofReal_of_nonneg hx

lemma atan2_zero_neg (x : ℝ) (hx : x < 0) : atan2 0 x = Real.pi := by
  rw [atan2, complex_mk_ofReal]
  exact Complex.arg_ofReal_of_neg hx

lemma sqrt_horiz (t : ℝ) (ht : 0 ≤ t) : Real.sqrt (t * t + 0 * 0) = t := by
  rw [zero_mul, add_zero, Real.sqrt_mul_self ht]

lemma cos_wrapAbove (r : ℝ) : Real.cos (wrapAbove r) = Real.cos r := by
  rw [wrapAbove]
  split
  · rw [Real.cos_sub_two_pi]
  · rfl

lemma sin_wrapAbove (r : ℝ) : Real.sin (wrapAbove r) = Real.sin r := by
  rw [wrapAbove]
  split
  · rw [Real.sin_sub_two_pi]
  · rfl

lemma cos_normPos (r : ℝ) :
    Real.cos (if r < 0 then r + 2 * Real.pi else r) = Real.cos r := by
  split
  · rw [Real.cos_add_two_pi]
  · rfl

lemma sin_normPos (r : ℝ) :
    Real.sin (if r < 0 then r + 2 * Real.pi else r) = Real.sin r := by
  split
  · rw [Real.sin_add_two_pi]
  · rfl

/-! Projection lemmas for the step functions. -/

lemma updatePlayer_pulse (p : Player) (k : KeyState) (cv : Option Canvas) :
    (updatePlayer p k cv).pulse = jsMod (p.pulse + 0.1) (2 * Real.pi) := rfl

lemma updatePlayer_size (p : Player) (k : KeyState) (cv : Option Canvas) :
    (updatePlayer p k cv).size = p.size := rfl

lemma aiAfterMove_pulse (ai p : Player) (uv : AIVision) (nx ny nr : ℝ) (nd : Direction)
    (cv : Option Canvas) (boxes : List Box) (rand : ℝ) :
    (aiAfterMove ai p uv nx ny nr nd cv boxes rand).updatedAiPlayer.pulse =
      jsMod (ai.pulse + 0.08) (2 * Real.pi) := rfl

lemma aiAfterMove_size (ai p : Player) (uv : AIVision) (nx ny nr : ℝ) (nd : Direction)
    (cv : Option Canvas) (boxes : List Box) (rand : ℝ) :
    (aiAfterMove ai p uv nx ny nr nd cv boxes rand).updatedAiPlayer.size = ai.size := rfl

lemma updateAiPlayer_pulse (ai p : Player) (v : AIVision) (cv : Option Canvas)
    (boxes : List Box) (rand : ℝ) :
    (updateAiPlayer ai p v cv boxes rand).updatedAiPlayer.pulse =
      jsMod (ai.pulse + 0.08) (2 * Real.pi) := by
  unfold updateAiPlayer
  dsimp only
  split
  · split
    · rfl
    · rfl
  · rfl

lemma updateAiPlayer_size (ai p : Player) (v : AIVision) (cv : Option Canvas)
    (boxes : List Box) (rand : ℝ) :
    (updateAiPlayer ai p v cv boxes rand).updatedAiPlayer.size = ai.size := by
  unfold updateAiPlayer
  dsimp only
  split
  · split
    · rfl
    · rfl
  · rfl

/-! Concrete configurations used by witnesses and counterexamples:
the initial entities and vision constants of Game.tsx. -/

/-- The human player of Game.tsx. -/
noncomputable def humanP : Player :=
  { id := "player1", x := 400, y := 300, direction := Direction.none,
    speed := 5, size := 20, pulse := 0 }

/-- The reference 800 by 600 canvas. -/
noncomputable def canvasG : Canvas := { width := 800, height := 600 }

/-- The vision constants of Game.tsx: a 220 degree cone, distance 160. -/
noncomputable def visionG : AIVision :=
  { canSeePlayer := false, visionConeAngle := 220, visionDistance := 160 }

/-- C7: in a human step with 'w' and 'd' held (and 'a' not held, so the
horizontal branch resolves to 'd'), when clamping does not bind, the
returned direction is `right` (horizontal resolution overwrites the
vertical label because it is evaluated after it), x increases by speed
and y decreases by speed. -/
theorem human_step_w_d_right (p : Player) (k : KeyState) (c : Canvas)
    (hw : k.w = true) (hd : k.d = true) (ha : k.a = false)
    (hx1 : p.size ≤ p.x + p.speed) (hx2 : p.x + p.speed ≤ c.width - p.size)
    (hy1 : p.size ≤ p.y - p.speed) (hy2 : p.y - p.speed ≤ c.height - p.size) :
    (updatePlayer p k (Option.some c)).direction = Direction.right ∧
    (updatePlayer p k (Option.some c)).x = p.x + p.speed ∧
    (updatePlayer p k (Option.some c)).y = p.y - p.speed := by
  refine ⟨?_, ?_, ?_⟩ <;> simp only [updatePlayer, hw, hd, ha, if_true, if_false,
    Bool.false_eq_true, reduceCtorEq, reduceIte]
  · exact clampJS_eq_self _ _ _ hx1 hx2
  · exact clampJS_eq_self _ _ _ hy1 hy2

theorem human_step_w_d_right_witness :
    (updatePlayer humanP { w := true, d := true } (Option.some canvasG)).direction =
      Direction.right ∧
    (updatePlayer humanP { w := true, d := true } (Option.some canvasG)).x =
      humanP.x + humanP.speed ∧
    (updatePlayer humanP { w := true, d := true } (Option.some canvasG)).y =
      humanP.y - humanP.speed :=
  human_step_w_d_right humanP { w := true, d := true } canvasG rfl rfl rfl
    (by norm_num [humanP]) (by norm_num [humanP, canvasG])
    (by norm_num [humanP]) (by norm_num [humanP, canvasG])

/-- C8: in a human step with no movement key held, the returned
direction keeps its previous value (the step never forces it back to
`none`), and the returned position is the input position after
clamping. -/
theorem human_step_idle_keeps_direction (p : Player) (k : KeyState) (c : Canvas)
    (hw : k.w = false) (ha : k.a = false) (hs : k.s = false) (hd : k.d = false) :
    (updatePlayer p k (Option.some c)).direction = p.direction ∧
    (updatePlayer p k (Option.some c)).x = clampJS p.size (c.width - p.size) p.x ∧
    (updatePlayer p k (Option.some c)).y = clampJS p.size (c.height - p.size) p.y := by
  refine ⟨?_, ?_, ?_⟩ <;>
    simp only [updatePlayer, hw, ha, hs, hd, Bool.false_eq_true, if_false, reduceIte]

theorem human_step_idle_keeps_direction_witness :
    (updatePlayer humanP {} (Option.some canvasG)).direction = humanP.direction ∧
    (updatePlayer humanP {} (Option.some canvasG)).x =
      clampJS humanP.size (canvasG.width - humanP.size) humanP.x ∧
    (updatePlayer humanP {} (Option.some canvasG)).y =
      clampJS humanP.size (canvasG.height - humanP.size) humanP.y :=
  human_step_idle_keeps_direction humanP {} canvasG rfl rfl rfl rfl

/-- C10: within-axis key precedence of the human step.  Because each
axis is resolved by an if / else-if chain, 'w' shadows 's' and 'a'
shadows 'd': with 'w' held the step is unchanged by clearing 's', and
with 'a' held it is unchanged by clearing 'd'. -/
theorem human_step_within_axis_precedence (p : Player) (k : KeyState)
    (cv : Option Canvas) :
    (k.w = true → updatePlayer p k cv = updatePlayer p { k with s := false } cv) ∧
    (k.a = true → updatePlayer p k cv = updatePlayer p { k with d := false } cv) := by
  constructor
  · intro hw
    simp only [updatePlayer, hw, if_true, reduceIte]
  · intro ha
    simp only [updatePlayer, ha, if_true, reduceIte]

theorem human_step_within_axis_precedence_witness :
    updatePlayer humanP { w := true, s := true } (Option.some canvasG) =
      updatePlayer humanP { w := true, s := false } (Option.some canvasG) ∧
    updatePlayer humanP { a := true, d := true } (Option.some canvasG) =
      updatePlayer humanP { a := true, d := false } (Option.some canvasG) :=
  ⟨(human_step_within_axis_precedence humanP { w := true, s := true }
      (Option.some canvasG)).1 rfl,
   (human_step_within_axis_precedence humanP { a := true, d := true }
      (Option.some canvasG)).2 rfl⟩

/-- C9: the pulse invariant.  Every human step advances the pulse by
exactly 0.1 modulo 2π and every AI step by exactly 0.08 modulo 2π, in
every branch, and a pulse starting in [0, 2π) stays in [0, 2π). -/
theorem pulse_invariant (p ai target : Player) (k : KeyState) (cv : Option Canvas)
    (v : AIVision) (boxes : List Box) (rand : ℝ)
    (hp : 0 ≤ p.pulse) (hp2 : p.pulse < 2 * Real.pi)
    (hai : 0 ≤ ai.pulse) (hai2 : ai.pulse < 2 * Real.pi) :
    ((updatePlayer p k cv).pulse = jsMod (p.pulse + 0.1) (2 * Real.pi) ∧
      0 ≤ (updatePlayer p k cv).pulse ∧ (updatePlayer p k cv).pulse < 2 * Real.pi) ∧
    ((updateAiPlayer ai target v cv boxes rand).updatedAiPlayer.pulse =
        jsMod (ai.pulse + 0.08) (2 * Real.pi) ∧
      0 ≤ (updateAiPlayer ai target v cv boxes rand).updatedAiPlayer.pulse ∧
      (updateAiPlayer ai target v cv boxes rand).updatedAiPlayer.pulse < 2 * Real.pi) := by
  have h2pi : (0 : ℝ) < 2 * Real.pi := by positivity
  have hhm := jsMod_nonneg_lt (p.pulse + 0.1) (2 * Real.pi) (by linarith) h2pi
  have ham := jsMod_nonneg_lt (ai.pulse + 0.08) (2 * Real.pi) (by linarith) h2pi
  refine ⟨⟨updatePlayer_pulse p k cv, ?_, ?_⟩,
    ⟨updateAiPlayer_pulse ai target v cv boxes rand, ?_, ?_⟩⟩
  · rw [updatePlayer_pulse]
    exact hhm.1
  · rw [updatePlayer_pulse]
    exact hhm.2
  · rw [updateAiPlayer_pulse]
    exact ham.1
  · rw [updateAiPlayer_pulse]
    exact ham.2

theorem pulse_invariant_witness :
    ((updatePlayer humanP {} (Option.some canvasG)).pulse =
        jsMod (humanP.pulse + 0.1) (2 * Real.pi) ∧
      0 ≤ (updatePlayer humanP {} (Option.some canvasG)).pulse ∧
      (updatePlayer humanP {} (Option.some canvasG)).pulse < 2 * Real.pi) ∧
    ((updateAiPlayer humanP humanP visionG (Option.some canvasG) [] 0).updatedAiPlayer.pulse =
        jsMod (humanP.pulse + 0.08) (2 * Real.pi) ∧
      0 ≤ (updateAiPlayer humanP humanP visionG (Option.some canvasG) [] 0).updatedAiPlayer.pulse ∧
      (updateAiPlayer humanP humanP visionG (Option.some canvasG) [] 0).updatedAiPlayer.pulse <
        2 * Real.pi) :=
  pulse_invariant humanP humanP humanP {} (Option.some canvasG) visionG [] 0
    (by norm_num [humanP]) (by simp only [humanP]; positivity)
    (by norm_num [humanP]) (by simp only [humanP]; positivity)

/-- The AI player of Game.tsx (the continuous variant stores no initial
rotation, so `rotation` starts undefined). -/
noncomputable def aiG : Player :=
  { id := "ai1", x := 200, y := 200, direction := Direction.none,
    speed := 3, size := 20, pulse := Real.pi, isAI := Option.some true }

/-- A sample static obstacle, far from the region the witnesses use. -/
noncomputable def boxG : Box := { x := 600, y := 500, width := 40, height := 40 }

/-- C6: the collision resolver contract (modelled from the spec,
collision.ts not being among the sources): a proposed position that
overlaps an obstacle or the other entity yields the mover's pre-move
position unchanged; a proposal with no overlap is returned verbatim;
and the result is invariant under permuting the obstacle list. -/
theorem collision_resolver_contract (px py : ℝ) (m : Player) (boxes : List Box)
    (other : Player) :
    (overlapsAny px py m boxes other = true →
      calculateNonCollidingPosition px py m boxes other = (m.x, m.y)) ∧
    (overlapsAny px py m boxes other = false →
      calculateNonCollidingPosition px py m boxes other = (px, py)) ∧
    (∀ boxes2 : List Box, boxes.Perm boxes2 →
      calculateNonCollidingPosition px py m boxes other =
        calculateNonCollidingPosition px py m boxes2 other) := by
  refine ⟨?_, ?_, ?_⟩
  · intro h
    rw [calculateNonCollidingPosition, if_pos h]
  · intro h
    rw [calculateNonCollidingPosition, if_neg]
    rw [h]
    exact Bool.false_ne_true
  · intro boxes2 hperm
    have hany : boxes.any (fun b => circleBoxOverlap px py m.size b) =
        boxes2.any (fun b => circleBoxOverlap px py m.size b) := by
      apply Bool.eq_iff_iff.mpr
      simp only [List.any_eq_true]
      constructor
      · rintro ⟨b, hb, hfb⟩
        exact ⟨b, hperm.mem_iff.mp hb, hfb⟩
      · rintro ⟨b, hb, hfb⟩
        exact ⟨b, hperm.mem_iff.mpr hb, hfb⟩
    rw [calculateNonCollidingPosition, calculateNonCollidingPosition, overlapsAny,
      overlapsAny, hany]

theorem collision_resolver_contract_witness :
    overlapsAny 100 100 humanP [boxG] aiG = false ∧
    calculateNonCollidingPosition 100 100 humanP [boxG] aiG = (100, 100) := by
  have h : overlapsAny 100 100 humanP [boxG] aiG = false := by
    rw [overlapsAny]
    have h1 : circleBoxOverlap 100 100 humanP.size boxG = false := by
      rw [circleBoxOverlap]
      simp only [boxG, humanP]
      norm_num [clampJS]
    have h2 : ((aiG.x - 100) * (aiG.x - 100) + (aiG.y - 100) * (aiG.y - 100) <
        (humanP.size + aiG.size) * (humanP.size + aiG.size)) = False := by
      simp only [aiG, humanP]
      norm_num
    simp [h1, h2]
  exact ⟨h, (collision_resolver_contract 100 100 humanP [boxG] aiG).2.1 h⟩

/-- Evaluation helper: with the target level with the AI and strictly to
its right within vision distance, and a facing in [0, π] no larger than
half the cone (in radians), the continuous vision check reports the
player as seen. -/
lemma checkAiVision_horiz_true (ai p : Player) (v : AIVision)
    (hy : p.y = ai.y) (hx : 0 < p.x - ai.x) (hd : p.x - ai.x ≤ v.visionDistance)
    (hr0 : 0 ≤ jsOr ai.rotation 0) (hrpi : jsOr ai.rotation 0 ≤ Real.pi)
    (hcone : jsOr ai.rotation 0 ≤ v.visionConeAngle * Real.pi / 180 / 2) :
    checkAiVision ai p v = { v with canSeePlayer := true } := by
  have hdy : p.y - ai.y = 0 := by rw [hy, sub_self]
  rw [checkAiVision]
  dsimp only
  rw [hdy, sqrt_horiz _ hx.le, if_neg (not_lt.mpr hd),
    atan2_zero_nonneg _ hx.le, zero_sub, abs_neg, abs_of_nonneg hr0,
    if_neg (not_lt.mpr hrpi), decide_eq_true hcone]

/-- C3 counterexample: in the continuous-rotation `checkAiVision` of
src, an AI with an undefined rotation (the idle state) has its facing
coerced to 0 by `rotation || 0`, and a player standing right of the AI
within vision distance is reported as seen, not as hidden. -/
theorem idle_vision_counterexample :
    ({ aiG with x := 400, y := 300, rotation := Option.none } : Player).rotation =
      Option.none ∧
    (checkAiVision { aiG with x := 400, y := 300, rotation := Option.none }
      { humanP with x := 410 } visionG).canSeePlayer = true := by
  constructor
  · rfl
  · rw [checkAiVision_horiz_true]
    · simp [humanP, aiG]
    · norm_num [humanP, aiG]
    · norm_num [humanP, aiG, visionG]
    · simp [jsOr]
    · simp [jsOr]
      exact Real.pi_pos.le
    · simp [jsOr, visionG]
      positivity

/-- C3 amended: the two vision checks treat the idle facing
differently.  In the grid-direction variant an AI whose direction is
`none` deterministically cannot see, for every target and distance; in
the continuous-rotation variant of src an undefined rotation is coerced
to 0 by `rotation || 0`, so the check behaves exactly as if the AI were
facing rotation 0 (and can report the player visible). -/
theorem idle_vision_amended (ai p : Player) (v : AIVision) :
    (checkAiVisionGrid { ai with direction := Direction.none } p v).canSeePlayer =
      false ∧
    checkAiVision { ai with rotation := Option.none } p v =
      checkAiVision { ai with rotation := Option.some 0 } p v := by
  constructor
  · rw [checkAiVisionGrid]
    dsimp only
    split
    · rfl
    · rfl
  · simp [checkAiVision, jsOr]

/-- Helper: horizontal distance evaluation of `euclidDist`. -/
lemma euclidDist_horiz (x1 y x2 : ℝ) (h : x1 ≤ x2) :
    euclidDist x1 y x2 y = x2 - x1 := by
  rw [euclidDist, sub_self]
  exact sqrt_horiz _ (sub_nonneg.mpr h)

/-- The stationary AI used by several witnesses: at (400, 300), facing
rotation 0 (rightward). -/
noncomputable def aiW : Player :=
  { aiG with x := 400, y := 300, rotation := Option.some 0 }

/-- A target 10 units right of `aiW`: inside contact range. -/
noncomputable def pNear : Player := { humanP with x := 410 }

/-- A target 100 units right of `aiW`: seen, outside contact range. -/
noncomputable def pFar : Player := { humanP with x := 500 }

/-- C4: when the updated vision sees the player and the distance to the
player is below contact range (the sum of both sizes), the AI step
returns with position unchanged and rotation set to the exact bearing
atan2(dy, dx); the early return bypasses wall and collision handling,
so this holds for every canvas, obstacle list and random sample. -/
theorem contact_branch_holds_position (ai p : Player) (v : AIVision)
    (cv : Option Canvas) (boxes : List Box) (rand : ℝ)
    (hsee : (checkAiVision ai p v).canSeePlayer = true)
    (hclose : euclidDist ai.x ai.y p.x p.y < ai.size + p.size) :
    (updateAiPlayer ai p v cv boxes rand).updatedAiPlayer.x = ai.x ∧
    (updateAiPlayer ai p v cv boxes rand).updatedAiPlayer.y = ai.y ∧
    (updateAiPlayer ai p v cv boxes rand).updatedAiPlayer.rotation =
      Option.some (atan2 (p.y - ai.y) (p.x - ai.x)) ∧
    (updateAiPlayer ai p v cv boxes rand).updatedAiVision = checkAiVision ai p v := by
  have hclose2 : Real.sqrt ((p.x - ai.x) * (p.x - ai.x) + (p.y - ai.y) * (p.y - ai.y)) <
      ai.size + p.size := hclose
  rw [updateAiPlayer]
  dsimp only
  simp only [hsee, if_true, if_pos hclose2]
  refine ⟨?_, ?_, ?_, ?_⟩ <;> trivial

theorem contact_branch_holds_position_witness :
    (checkAiVision aiW pNear visionG).canSeePlayer = true ∧
    euclidDist aiW.x aiW.y pNear.x pNear.y < aiW.size + pNear.size ∧
    ((updateAiPlayer aiW pNear visionG (Option.some canvasG) [] 0).updatedAiPlayer.x =
        aiW.x ∧
      (updateAiPlayer aiW pNear visionG (Option.some canvasG) [] 0).updatedAiPlayer.y =
        aiW.y ∧
      (updateAiPlayer aiW pNear visionG (Option.some canvasG) [] 0).updatedAiPlayer.rotation =
        Option.some (atan2 (pNear.y - aiW.y) (pNear.x - aiW.x)) ∧
      (updateAiPlayer aiW pNear visionG (Option.some canvasG) [] 0).updatedAiVision =
        checkAiVision aiW pNear visionG) := by
  have hsee : (checkAiVision aiW pNear visionG).canSeePlayer = true := by
    rw [checkAiVision_horiz_true]
    · simp [aiW, aiG, humanP, pNear]
    · norm_num [aiW, aiG, humanP, pNear]
    · norm_num [aiW, aiG, humanP, pNear, visionG]
    · simp [aiW, aiG, jsOr]
    · simp [aiW, aiG, jsOr]
      exact Real.pi_pos.le
    · simp [aiW, aiG, jsOr, visionG]
      positivity
  have hclose : euclidDist aiW.x aiW.y pNear.x pNear.y < aiW.size + pNear.size := by
    simp only [aiW, aiG, humanP, pNear]
    rw [euclidDist_horiz _ _ _ (by norm_num)]
    norm_num
  exact ⟨hsee, hclose,
    contact_branch_holds_position aiW pNear visionG (Option.some canvasG) [] 0 hsee hclose⟩

/-- Routing lemma: when the player is seen but not within contact
range, the AI step runs the pursue path: gradual or snapped rotation
toward the bearing, normalization into [0, 2π), movement along the
facing, then the shared wall/collision tail. -/
lemma updateAiPlayer_pursue (ai p : Player) (v : AIVision) (cv : Option Canvas)
    (boxes : List Box) (rand : ℝ)
    (hsee : (checkAiVision ai p v).canSeePlayer = true)
    (hfar : ¬ euclidDist ai.x ai.y p.x p.y < ai.size + p.size) :
    updateAiPlayer ai p v cv boxes rand =
      (let rotation0 := jsOr ai.rotation 0
      let rotSpeed := jsOr ai.rotationSpeed 0.05
      let angleToPlayer := atan2 (p.y - ai.y) (p.x - ai.x)
      let rotationDiff := wrapPi (angleToPlayer - rotation0)
      let r1 := if |rotationDiff| > 0.1 then
          if rotationDiff > 0 then rotation0 + rotSpeed else rotation0 - rotSpeed
        else angleToPlayer
      let r2 := wrapAbove (if r1 < 0 then r1 + 2 * Real.pi else r1)
      aiAfterMove ai p (checkAiVision ai p v)
        (ai.x + Real.cos r2 * ai.speed) (ai.y + Real.sin r2 * ai.speed)
        r2 (directionFromRotation r2) cv boxes rand) := by
  have hfar2 : ¬ Real.sqrt ((p.x - ai.x) * (p.x - ai.x) + (p.y - ai.y) * (p.y - ai.y)) <
      ai.size + p.size := hfar
  rw [updateAiPlayer]
  dsimp only
  simp only [hsee, if_true, if_neg hfar2]

/-- Tail lemma: when the proposed position is inside the walls and
collides with nothing, the wall turn, the clamping and the randomized
reorientation are all identity, and the step returns the proposal with
the provided rotation and direction. -/
lemma aiAfterMove_clean (ai p : Player) (uv : AIVision) (nx ny nr : ℝ) (nd : Direction)
    (c : Canvas) (boxes : List Box) (rand : ℝ)
    (h1 : ai.size ≤ nx) (h2 : nx ≤ c.width - ai.size)
    (h3 : ai.size ≤ ny) (h4 : ny ≤ c.height - ai.size)
    (hcol : overlapsAny nx ny ai boxes p = false) :
    aiAfterMove ai p uv nx ny nr nd (Option.some c) boxes rand =
      { updatedAiPlayer := { ai with
          x := nx
          y := ny
          direction := nd
          rotation := Option.some nr
          pulse := jsMod (ai.pulse + 0.08) (2 * Real.pi) }
        updatedAiVision := uv } := by
  have hwall : ¬ (nx < ai.size ∨ nx > c.width - ai.size ∨
      ny < ai.size ∨ ny > c.height - ai.size) := by
    push_neg
    exact ⟨h1, h2, h3, h4⟩
  have hover : ¬ overlapsAny nx ny ai boxes p = true := by
    rw [hcol]
    exact Bool.false_ne_true
  rw [aiAfterMove]
  dsimp only
  rw [if_neg hwall, clampJS_eq_self _ _ _ h1 h2, clampJS_eq_self _ _ _ h3 h4,
    calculateNonCollidingPosition, if_neg hover]
  dsimp only
  rw [if_neg (by simp)]

/-- Cosine of the bearing: cos (atan2 dy dx) = dx over the distance. -/
lemma cos_atan2 (dy dx : ℝ) (hne : ¬ (dx = 0 ∧ dy = 0)) :
    Real.cos (atan2 dy dx) = dx / Real.sqrt (dx * dx + dy * dy) := by
  have hz : (⟨dx, dy⟩ : ℂ) ≠ 0 := by
    intro h0
    rw [Complex.ext_iff] at h0
    exact hne ⟨h0.1, h0.2⟩
  have habs : Complex.abs ⟨dx, dy⟩ = Real.sqrt (dx * dx + dy * dy) := by
    rw [Complex.abs_apply, Complex.normSq_mk]
  rw [atan2, Complex.cos_arg hz, habs]

/-- Sine of the bearing: sin (atan2 dy dx) = dy over the distance. -/
lemma sin_atan2 (dy dx : ℝ) :
    Real.sin (atan2 dy dx) = dy / Real.sqrt (dx * dx + dy * dy) := by
  have habs : Complex.abs ⟨dx, dy⟩ = Real.sqrt (dx * dx + dy * dy) := by
    rw [Complex.abs_apply, Complex.normSq_mk]
  rw [atan2, Complex.sin_arg, habs]

/-- C2 amended: a pursue step moves the AI strictly closer to the
player when, in addition to the claim's hypotheses (player seen,
distance at least contact range), the facing is already within the
0.1 rad snap threshold of the bearing (so the step advances exactly
along the bearing), the speed is positive and below twice the
distance, and the stepped position stays inside the walls and is
accepted by the collision resolver. -/
theorem pursue_snap_decreases_distance (ai p : Player) (v : AIVision) (c : Canvas)
    (boxes : List Box) (rand : ℝ)
    (hsee : (checkAiVision ai p v).canSeePlayer = true)
    (hfar : ai.size + p.size ≤ euclidDist ai.x ai.y p.x p.y)
    (hdpos : 0 < euclidDist ai.x ai.y p.x p.y)
    (hsnap : |wrapPi (atan2 (p.y - ai.y) (p.x - ai.x) - jsOr ai.rotation 0)| ≤ 0.1)
    (hs1 : 0 < ai.speed) (hs2 : ai.speed < 2 * euclidDist ai.x ai.y p.x p.y)
    (hx1 : ai.size ≤ ai.x + (p.x - ai.x) / euclidDist ai.x ai.y p.x p.y * ai.speed)
    (hx2 : ai.x + (p.x - ai.x) / euclidDist ai.x ai.y p.x p.y * ai.speed ≤
      c.width - ai.size)
    (hy1 : ai.size ≤ ai.y + (p.y - ai.y) / euclidDist ai.x ai.y p.x p.y * ai.speed)
    (hy2 : ai.y + (p.y - ai.y) / euclidDist ai.x ai.y p.x p.y * ai.speed ≤
      c.height - ai.size)
    (hcol : overlapsAny (ai.x + (p.x - ai.x) / euclidDist ai.x ai.y p.x p.y * ai.speed)
      (ai.y + (p.y - ai.y) / euclidDist ai.x ai.y p.x p.y * ai.speed) ai boxes p
      = false) :
    euclidDist (updateAiPlayer ai p v (Option.some c) boxes rand).updatedAiPlayer.x
      (updateAiPlayer ai p v (Option.some c) boxes rand).updatedAiPlayer.y p.x p.y
      < euclidDist ai.x ai.y p.x p.y := by
  have hcontact : ¬ euclidDist ai.x ai.y p.x p.y < ai.size + p.size := not_lt.mpr hfar
  have hne : ¬ ((p.x - ai.x) = 0 ∧ (p.y - ai.y) = 0) := by
    rintro ⟨h1, h2⟩
    have : euclidDist ai.x ai.y p.x p.y = 0 := by
      rw [euclidDist, h1, h2]
      simp
    rw [this] at hdpos
    exact lt_irrefl 0 hdpos
  have hcos : Real.cos (atan2 (p.y - ai.y) (p.x - ai.x)) =
      (p.x - ai.x) / euclidDist ai.x ai.y p.x p.y :=
    cos_atan2 (p.y - ai.y) (p.x - ai.x) hne
  have hsin : Real.sin (atan2 (p.y - ai.y) (p.x - ai.x)) =
      (p.y - ai.y) / euclidDist ai.x ai.y p.x p.y :=
    sin_atan2 (p.y - ai.y) (p.x - ai.x)
  rw [updateAiPlayer_pursue ai p v (Option.some c) boxes rand hsee hcontact]
  dsimp only
  rw [if_neg (not_lt.mpr hsnap), cos_wrapAbove, cos_normPos, sin_wrapAbove, sin_normPos,
    hcos, hsin,
    aiAfterMove_clean ai p (checkAiVision ai p v) _ _ _ _ c boxes rand hx1 hx2 hy1 hy2 hcol]
  dsimp only
  set d := euclidDist ai.x ai.y p.x p.y with hdDef
  have hdne : d ≠ 0 := ne_of_gt hdpos
  have hsq : d * d = (p.x - ai.x) * (p.x - ai.x) + (p.y - ai.y) * (p.y - ai.y) := by
    rw [hdDef, euclidDist]
    exact Real.mul_self_sqrt (add_nonneg (mul_self_nonneg _) (mul_self_nonneg _))
  have e1 : p.x - (ai.x + (p.x - ai.x) / d * ai.speed) =
      (p.x - ai.x) * ((d - ai.speed) / d) := by
    field_simp
    ring
  have e2 : p.y - (ai.y + (p.y - ai.y) / d * ai.speed) =
      (p.y - ai.y) * ((d - ai.speed) / d) := by
    field_simp
    ring
  have key : euclidDist (ai.x + (p.x - ai.x) / d * ai.speed)
      (ai.y + (p.y - ai.y) / d * ai.speed) p.x p.y = |d - ai.speed| := by
    rw [euclidDist, e1, e2]
    have e3 : (p.x - ai.x) * ((d - ai.speed) / d) * ((p.x - ai.x) * ((d - ai.speed) / d)) +
        (p.y - ai.y) * ((d - ai.speed) / d) * ((p.y - ai.y) * ((d - ai.speed) / d)) =
        (d - ai.speed) ^ 2 := by
      field_simp
      nlinarith [hsq]
    rw [e3, Real.sqrt_sq_eq_abs]
  rw [key, abs_lt]
  constructor
  · linarith
  · linarith

lemma wrapPi_zero : wrapPi 0 = 0 := by
  rw [wrapPi]
  rw [if_neg (by nlinarith [Real.pi_pos] : ¬ ((0 : ℝ) > Real.pi)),
    if_neg (by nlinarith [Real.pi_pos] : ¬ ((0 : ℝ) < -Real.pi))]

theorem pursue_snap_decreases_distance_witness :
    euclidDist (updateAiPlayer aiW pFar visionG (Option.some canvasG) [] 0).updatedAiPlayer.x
      (updateAiPlayer aiW pFar visionG (Option.some canvasG) [] 0).updatedAiPlayer.y
      pFar.x pFar.y < euclidDist aiW.x aiW.y pFar.x pFar.y := by
  have h100 : euclidDist aiW.x aiW.y pFar.x pFar.y = 100 := by
    simp only [aiW, aiG, humanP, pFar]
    rw [euclidDist_horiz _ _ _ (by norm_num)]
    norm_num
  have hsee : (checkAiVision aiW pFar visionG).canSeePlayer = true := by
    rw [checkAiVision_horiz_true]
    · simp [aiW, aiG, humanP, pFar]
    · norm_num [aiW, aiG, humanP, pFar]
    · norm_num [aiW, aiG, humanP, pFar, visionG]
    · simp [aiW, aiG, jsOr]
    · simp [aiW, aiG, jsOr]
      exact Real.pi_pos.le
    · simp [aiW, aiG, jsOr, visionG]
      positivity
  have hb : atan2 (pFar.y - aiW.y) (pFar.x - aiW.x) = 0 := by
    have h1 : pFar.y - aiW.y = 0 := by simp [pFar, aiW, aiG, humanP]
    have h2 : pFar.x - aiW.x = 100 := by norm_num [pFar, aiW, aiG, humanP]
    rw [h1, h2]
    exact atan2_zero_nonneg 100 (by norm_num)
  have hr : jsOr aiW.rotation 0 = 0 := by simp [aiW, aiG, jsOr]
  apply pursue_snap_decreases_distance
  · exact hsee
  · rw [h100]
    norm_num [aiW, aiG, pFar, humanP]
  · rw [h100]
    norm_num
  · rw [hb, hr, sub_zero, wrapPi_zero]
    norm_num
  · norm_num [aiW, aiG]
  · rw [h100]
    norm_num [aiW, aiG]
  · rw [h100]
    norm_num [aiW, aiG, pFar, humanP]
  · rw [h100]
    norm_num [aiW, aiG, pFar, humanP, canvasG]
  · rw [h100]
    norm_num [aiW, aiG, pFar, humanP]
  · rw [h100]
    norm_num [aiW, aiG, pFar, humanP, canvasG]
  · rw [h100, overlapsAny]
    simp only [List.any_nil, Bool.false_or]
    rw [decide_eq_false_iff_not]
    norm_num [aiW, aiG, pFar, humanP]

/-- The AI of the counterexample: at (400, 300), facing rotation 1.8
rad (about 103 degrees, roughly downward), with the default rotation
speed 0.05. -/
noncomputable def aiR : Player :=
  { aiG with x := 400, y := 300, rotation := Option.some 1.8 }

/-- C2 counterexample: with the player 100 units to the right — seen
(1.8 rad is inside the 110 degree half-cone) and far beyond contact
range — the pursue step rotates only by 0.05 toward the bearing and
advances along rotation 1.75, whose cosine is negative, so the AI ends
strictly farther from the player than before the step. -/
theorem pursue_visible_far_counterexample :
    (updateAiPlayer aiR pFar visionG (Option.some canvasG) [] 0).updatedAiVision.canSeePlayer =
      true ∧
    aiR.size + pFar.size ≤ euclidDist aiR.x aiR.y pFar.x pFar.y ∧
    euclidDist aiR.x aiR.y pFar.x pFar.y <
      euclidDist (updateAiPlayer aiR pFar visionG (Option.some canvasG) [] 0).updatedAiPlayer.x
        (updateAiPlayer aiR pFar visionG (Option.some canvasG) [] 0).updatedAiPlayer.y
        pFar.x pFar.y := by
  have hpi1 : (3.141592 : ℝ) < Real.pi := Real.pi_gt_d6
  have hpi2 : Real.pi < 3.15 := Real.pi_lt_d2
  have h100 : euclidDist aiR.x aiR.y pFar.x pFar.y = 100 := by
    simp only [aiR, aiG, humanP, pFar]
    rw [euclidDist_horiz _ _ _ (by norm_num)]
    norm_num
  have hsee : (checkAiVision aiR pFar visionG).canSeePlayer = true := by
    rw [checkAiVision_horiz_true]
    · simp [aiR, aiG, humanP, pFar]
    · norm_num [aiR, aiG, humanP, pFar]
    · norm_num [aiR, aiG, humanP, pFar, visionG]
    · norm_num [aiR, aiG, jsOr]
    · norm_num [aiR, aiG, jsOr]
      nlinarith
    · norm_num [aiR, aiG, jsOr, visionG]
      nlinarith
  have hfar : ¬ euclidDist aiR.x aiR.y pFar.x pFar.y < aiR.size + pFar.size := by
    rw [h100]
    norm_num [aiR, aiG, pFar, humanP]
  have hcos1 : Real.cos (1.8 - 0.05 : ℝ) ≤ 1 := Real.cos_le_one _
  have hcos2 : -1 ≤ Real.cos (1.8 - 0.05 : ℝ) := Real.neg_one_le_cos _
  have hsin1 : Real.sin (1.8 - 0.05 : ℝ) ≤ 1 := Real.sin_le_one _
  have hsin2 : -1 ≤ Real.sin (1.8 - 0.05 : ℝ) := Real.neg_one_le_sin _
  have hcneg : Real.cos (1.8 - 0.05 : ℝ) < 0 := by
    apply Real.cos_neg_of_pi_div_two_lt_of_lt
    · nlinarith
    · nlinarith
  have hb1 : aiR.size ≤ aiR.x + Real.cos (1.8 - 0.05) * aiR.speed := by
    simp only [aiR, aiG, humanP]
    nlinarith
  have hb2 : aiR.x + Real.cos (1.8 - 0.05) * aiR.speed ≤ canvasG.width - aiR.size := by
    simp only [aiR, aiG, humanP, canvasG]
    nlinarith
  have hb3 : aiR.size ≤ aiR.y + Real.sin (1.8 - 0.05) * aiR.speed := by
    simp only [aiR, aiG, humanP]
    nlinarith
  have hb4 : aiR.y + Real.sin (1.8 - 0.05) * aiR.speed ≤ canvasG.height - aiR.size := by
    simp only [aiR, aiG, humanP, canvasG]
    nlinarith
  have hcol : overlapsAny (aiR.x + Real.cos (1.8 - 0.05) * aiR.speed)
      (aiR.y + Real.sin (1.8 - 0.05) * aiR.speed) aiR [] pFar = false := by
    rw [overlapsAny]
    simp only [List.any_nil, Bool.false_or]
    rw [decide_eq_false_iff_not]
    simp only [aiR, aiG, pFar, humanP]
    intro habs
    nlinarith [mul_self_nonneg (Real.sin (1.8 - 0.05 : ℝ))]
  have hstep : updateAiPlayer aiR pFar visionG (Option.some canvasG) [] 0 =
      { updatedAiPlayer := { aiR with
          x := aiR.x + Real.cos (1.8 - 0.05) * aiR.speed
          y := aiR.y + Real.sin (1.8 - 0.05) * aiR.speed
          direction := directionFromRotation (1.8 - 0.05)
          rotation := Option.some (1.8 - 0.05)
          pulse := jsMod (aiR.pulse + 0.08) (2 * Real.pi) }
        updatedAiVision := checkAiVision aiR pFar visionG } := by
    rw [updateAiPlayer_pursue aiR pFar visionG (Option.some canvasG) [] 0 hsee hfar]
    dsimp only
    have e1 : atan2 (pFar.y - aiR.y) (pFar.x - aiR.x) = 0 := by
      have hy0 : pFar.y - aiR.y = 0 := by simp [pFar, aiR, aiG, humanP]
      have hx0 : pFar.x - aiR.x = 100 := by norm_num [pFar, aiR, aiG, humanP]
      rw [hy0, hx0]
      exact atan2_zero_nonneg 100 (by norm_num)
    have e2 : jsOr aiR.rotation 0 = 1.8 := by norm_num [aiR, aiG, jsOr]
    have e3 : jsOr aiR.rotationSpeed 0.05 = 0.05 := by simp [aiR, aiG, jsOr]
    rw [e1, e2, e3]
    have e4 : wrapPi (0 - 1.8) = -1.8 := by
      rw [wrapPi]
      rw [if_neg (by nlinarith : ¬ ((0 : ℝ) - 1.8 > Real.pi))]
      rw [if_neg (by nlinarith : ¬ ((0 : ℝ) - 1.8 < -Real.pi))]
      norm_num
    rw [e4]
    rw [if_pos (by
      rw [abs_neg, abs_of_pos (by norm_num : (0 : ℝ) < 1.8)]
      norm_num : |(-1.8 : ℝ)| > 0.1)]
    rw [if_neg (by norm_num : ¬ ((-1.8 : ℝ) > 0))]
    rw [if_neg (by norm_num : ¬ ((1.8 - 0.05 : ℝ) < 0))]
    have e5 : wrapAbove (1.8 - 0.05) = 1.8 - 0.05 := by
      rw [wrapAbove, if_neg]
      intro habs
      nlinarith
    rw [e5]
    rw [aiAfterMove_clean aiR pFar (checkAiVision aiR pFar visionG) _ _ _ _ canvasG [] 0
      hb1 hb2 hb3 hb4 hcol]
  refine ⟨?_, ?_, ?_⟩
  · rw [hstep]
    exact hsee
  · rw [h100]
    norm_num [aiR, aiG, pFar, humanP]
  · rw [hstep, h100]
    clear hstep hsee hfar hcol hb1 hb2 hb3 hb4 h100
    dsimp only
    simp only [aiR, aiG, pFar, humanP]
    rw [euclidDist]
    have hR : (500 - (400 + Real.cos (1.8 - 0.05) * 3)) *
          (500 - (400 + Real.cos (1.8 - 0.05) * 3)) +
        (300 - (300 + Real.sin (1.8 - 0.05) * 3)) *
          (300 - (300 + Real.sin (1.8 - 0.05) * 3)) =
        10009 - 600 * Real.cos (1.8 - 0.05) := by
      have hpyth := Real.sin_sq_add_cos_sq (1.8 - 0.05 : ℝ)
      nlinarith [hpyth]
    rw [hR]
    have hsqrt100 : Real.sqrt 10000 = 100 := by
      rw [show (10000 : ℝ) = 100 * 100 by norm_num,
        Real.sqrt_mul_self (by norm_num : (0 : ℝ) ≤ 100)]
    have hlt : (10000 : ℝ) < 10009 - 600 * Real.cos (1.8 - 0.05) := by nlinarith
    have hfin := Real.sqrt_lt_sqrt (by norm_num : (0 : ℝ) ≤ 10000) hlt
    rw [hsqrt100] at hfin
    exact hfin

/-- C5: the continuous vision check computes exactly the spec's
`isWithinCone` contract with the observer facing `rotation || 0`:
distance pre-filter first, then the absolute difference between the
bearing and the facing, wrapped by subtracting from a full turn when
the raw difference exceeds a half turn, compared against half the cone
angle.  In particular a target directly behind the observer (bearing
exactly π away from the facing) is never seen when the cone is below
360 degrees. -/
theorem vision_cone_characterization (ai p : Player) (v : AIVision) :
    ((checkAiVision ai p v).canSeePlayer =
      isWithinCone ai.x ai.y (jsOr ai.rotation 0) p.x p.y v.visionConeAngle
        v.visionDistance) ∧
    ((atan2 (p.y - ai.y) (p.x - ai.x) = jsOr ai.rotation 0 + Real.pi ∨
        atan2 (p.y - ai.y) (p.x - ai.x) = jsOr ai.rotation 0 - Real.pi) →
      v.visionConeAngle < 360 →
      (checkAiVision ai p v).canSeePlayer = false) := by
  have hpi : (0 : ℝ) < Real.pi := Real.pi_pos
  have hk : (0 : ℝ) < 180 / Real.pi := by positivity
  constructor
  · rw [checkAiVision, isWithinCone]
    dsimp only
    have hdeg : atan2 (p.y - ai.y) (p.x - ai.x) * (180 / Real.pi) -
        jsOr ai.rotation 0 * (180 / Real.pi) =
        (atan2 (p.y - ai.y) (p.x - ai.x) - jsOr ai.rotation 0) * (180 / Real.pi) := by
      ring
    rw [hdeg, abs_mul, abs_of_pos hk]
    have hcond : (|atan2 (p.y - ai.y) (p.x - ai.x) - jsOr ai.rotation 0| *
        (180 / Real.pi) > 180) ↔
        (|atan2 (p.y - ai.y) (p.x - ai.x) - jsOr ai.rotation 0| > Real.pi) := by
      rw [gt_iff_lt, gt_iff_lt, ← div_lt_iff₀ hk,
        show (180 : ℝ) / (180 / Real.pi) = Real.pi by field_simp]
    have h2 : v.visionConeAngle * Real.pi / 180 / 2 * (180 / Real.pi) =
        v.visionConeAngle / 2 := by
      field_simp
      ring
    split_ifs with hdist hgt1 hgt2 hgt3
    · rfl
    · rw [decide_eq_decide,
        ← mul_le_mul_right hk, h2,
        show (2 * Real.pi - |atan2 (p.y - ai.y) (p.x - ai.x) - jsOr ai.rotation 0|) *
            (180 / Real.pi) =
          360 - |atan2 (p.y - ai.y) (p.x - ai.x) - jsOr ai.rotation 0| *
            (180 / Real.pi) by field_simp; ring]
    · exact absurd (hcond.mpr hgt1) hgt2
    · exact absurd (hcond.mp hgt3) hgt1
    · rw [decide_eq_decide, ← mul_le_mul_right hk, h2]
  · intro hbehind hcone
    have habs : |atan2 (p.y - ai.y) (p.x - ai.x) - jsOr ai.rotation 0| = Real.pi := by
      rcases hbehind with h | h
      · rw [h, show jsOr ai.rotation 0 + Real.pi - jsOr ai.rotation 0 = Real.pi by ring,
          abs_of_pos hpi]
      · rw [h, show jsOr ai.rotation 0 - Real.pi - jsOr ai.rotation 0 = -Real.pi by ring,
          abs_neg, abs_of_pos hpi]
    rw [checkAiVision]
    dsimp only
    rw [habs]
    split
    · rfl
    · rw [if_neg (lt_irrefl Real.pi)]
      dsimp only
      rw [decide_eq_false_iff_not]
      intro hc
      nlinarith

/-- A target 100 units left of `aiW`: directly behind its rightward
facing. -/
noncomputable def pBehind : Player := { humanP with x := 300 }

theorem vision_cone_characterization_witness :
    (checkAiVision aiW pBehind visionG).canSeePlayer = false ∧
    (checkAiVision aiW pBehind visionG).canSeePlayer =
      isWithinCone aiW.x aiW.y (jsOr aiW.rotation 0) pBehind.x pBehind.y
        visionG.visionConeAngle visionG.visionDistance := by
  have hb : atan2 (pBehind.y - aiW.y) (pBehind.x - aiW.x) =
      jsOr aiW.rotation 0 + Real.pi := by
    have h1 : pBehind.y - aiW.y = 0 := by simp [pBehind, aiW, aiG, humanP]
    have h2 : pBehind.x - aiW.x = -100 := by norm_num [pBehind, aiW, aiG, humanP]
    have h3 : jsOr aiW.rotation 0 = 0 := by simp [aiW, aiG, jsOr]
    rw [h1, h2, h3, zero_add]
    exact atan2_zero_neg (-100) (by norm_num)
  exact ⟨(vision_cone_characterization aiW pBehind visionG).2 (Or.inl hb)
      (by norm_num [visionG]),
    (vision_cone_characterization aiW pBehind visionG).1⟩

/-- The clamp region of spec section 8: both coordinates within
[size, bound - size]. -/
def inBounds (p : Player) (c : Canvas) : Prop :=
  p.size ≤ p.x ∧ p.x ≤ c.width - p.size ∧ p.size ≤ p.y ∧ p.y ≤ c.height - p.size

lemma updatePlayer_inBounds (p : Player) (k : KeyState) (c : Canvas)
    (hw : p.size ≤ c.width - p.size) (hh : p.size ≤ c.height - p.size) :
    inBounds (updatePlayer p k (Option.some c)) c := by
  exact ⟨(clampJS_mem _ _ _ hw).1, (clampJS_mem _ _ _ hw).2,
    (clampJS_mem _ _ _ hh).1, (clampJS_mem _ _ _ hh).2⟩

lemma aiAfterMove_inBounds (ai p : Player) (uv : AIVision) (nx ny nr : ℝ)
    (nd : Direction) (c : Canvas) (boxes : List Box) (rand : ℝ)
    (hw : ai.size ≤ c.width - ai.size) (hh : ai.size ≤ c.height - ai.size)
    (hin : inBounds ai c) :
    inBounds (aiAfterMove ai p uv nx ny nr nd (Option.some c) boxes rand).updatedAiPlayer
      c := by
  have hcx := clampJS_mem ai.size (c.width - ai.size) nx hw
  have hcy := clampJS_mem ai.size (c.height - ai.size) ny hh
  rw [aiAfterMove]
  dsimp only
  rw [calculateNonCollidingPosition]
  split_ifs <;>
    first
      | exact ⟨hin.1, hin.2.1, hin.2.2.1, hin.2.2.2⟩
      | exact ⟨hcx.1, hcx.2, hcy.1, hcy.2⟩

lemma updateAiPlayer_inBounds (ai p : Player) (v : AIVision) (c : Canvas)
    (boxes : List Box) (rand : ℝ)
    (hw : ai.size ≤ c.width - ai.size) (hh : ai.size ≤ c.height - ai.size)
    (hin : inBounds ai c) :
    inBounds (updateAiPlayer ai p v (Option.some c) boxes rand).updatedAiPlayer c := by
  rw [updateAiPlayer]
  dsimp only
  split
  · split
    · exact ⟨hin.1, hin.2.1, hin.2.2.1, hin.2.2.2⟩
    · exact aiAfterMove_inBounds ai p _ _ _ _ _ c boxes rand hw hh hin
  · exact aiAfterMove_inBounds ai p _ _ _ _ _ c boxes rand hw hh hin

lemma simulate_sizes (keys : Nat → KeyState) (rand : Nat → ℝ) (cv : Option Canvas)
    (boxes : List Box) (st : GameState) (n : Nat) :
    (simulate keys rand cv boxes st n).player.size = st.player.size ∧
    (simulate keys rand cv boxes st n).aiPlayer.size = st.aiPlayer.size := by
  induction n with
  | zero => exact ⟨rfl, rfl⟩
  | succ n ih =>
    constructor
    · calc (simulate keys rand cv boxes st (n + 1)).player.size
          = (updatePlayer (simulate keys rand cv boxes st n).player (keys n) cv).size :=
            rfl
        _ = (simulate keys rand cv boxes st n).player.size := updatePlayer_size _ _ _
        _ = st.player.size := ih.1
    · calc (simulate keys rand cv boxes st (n + 1)).aiPlayer.size
          = (updateAiPlayer (simulate keys rand cv boxes st n).aiPlayer
              (simulate keys rand cv boxes st n).player
              (simulate keys rand cv boxes st n).aiVision cv boxes (rand n)).updatedAiPlayer.size :=
            rfl
        _ = (simulate keys rand cv boxes st n).aiPlayer.size :=
            updateAiPlayer_size _ _ _ _ _ _
        _ = st.aiPlayer.size := ih.2

/-- C1: the clamp invariant.  For entities whose size fits the canvas,
starting inside the clamped region, after any number of simulated
frames — for every stream of key states and random samples — both the
human and the AI positions satisfy size ≤ x ≤ width - size and
size ≤ y ≤ height - size. -/
theorem clamp_invariant (keys : Nat → KeyState) (rand : Nat → ℝ) (c : Canvas)
    (boxes : List Box) (st : GameState)
    (hpw : st.player.size ≤ c.width - st.player.size)
    (hph : st.player.size ≤ c.height - st.player.size)
    (haw : st.aiPlayer.size ≤ c.width - st.aiPlayer.size)
    (hah : st.aiPlayer.size ≤ c.height - st.aiPlayer.size)
    (hp0 : inBounds st.player c) (ha0 : inBounds st.aiPlayer c) (n : Nat) :
    inBounds (simulate keys rand (Option.some c) boxes st n).player c ∧
    inBounds (simulate keys rand (Option.some c) boxes st n).aiPlayer c := by
  induction n with
  | zero => exact ⟨hp0, ha0⟩
  | succ n ih =>
    have hsz := simulate_sizes keys rand (Option.some c) boxes st n
    have h1 : inBounds (updatePlayer (simulate keys rand (Option.some c) boxes st n).player
        (keys n) (Option.some c)) c :=
      updatePlayer_inBounds _ _ _ (by rw [hsz.1]; exact hpw) (by rw [hsz.1]; exact hph)
    have h2 : inBounds (updateAiPlayer (simulate keys rand (Option.some c) boxes st n).aiPlayer
        (simulate keys rand (Option.some c) boxes st n).player
        (simulate keys rand (Option.some c) boxes st n).aiVision
        (Option.some c) boxes (rand n)).updatedAiPlayer c :=
      updateAiPlayer_inBounds _ _ _ _ _ _ (by rw [hsz.2]; exact haw)
        (by rw [hsz.2]; exact hah) ih.2
    exact ⟨h1, h2⟩

theorem clamp_invariant_witness :
    inBounds (simulate (fun _ => {}) (fun _ => 0) (Option.some canvasG) []
      { player := humanP, aiPlayer := aiG, aiVision := visionG } 5).player canvasG ∧
    inBounds (simulate (fun _ => {}) (fun _ => 0) (Option.some canvasG) []
      { player := humanP, aiPlayer := aiG, aiVision := visionG } 5).aiPlayer canvasG :=
  clamp_invariant (fun _ => {}) (fun _ => 0) canvasG []
    { player := humanP, aiPlayer := aiG, aiVision := visionG }
    (by norm_num [humanP, canvasG]) (by norm_num [humanP, canvasG])
    (by norm_num [aiG, canvasG]) (by norm_num [aiG, canvasG])
    (by norm_num [inBounds, humanP, canvasG]) (by norm_num [inBounds, aiG, canvasG]) 5
